import Mathlib

/-!
Verification of the reminder scheduling and deduplication engine of the
discord-reminder repository.  The Python sources under `src/` are shallowly
embedded: the database rows become structures, the SQLAlchemy session becomes
an explicit in-memory/committed state pair, the scheduler job bodies become
pure functions over that state, and every external call (provider HTTP fetch,
token refresh, Discord DM delivery) becomes an oracle passed in as a function
argument, so that each control path of the Python code is represented exactly.
-/

namespace DiscordReminder

/-- Python truthiness of an optional string (`if refresh_token:`,
`if new_token:`, `if page_token:` in the sources): `None` and the empty string
are falsy, every other string is truthy. -/
def pyTruthyStr : Option String → Bool
  | none => false
  | some s => !s.isEmpty

/-- Python `str(x)` applied to an optional identifier taken from a dict
(`str(event_id)` in `_send_hour_before_reminder`): `str(None)` is the literal
string `"None"`. -/
def pyStrOpt : Option String → String
  | none => "None"
  | some s => s

/-- Python `str`/f-string rendering of an optional integer id
(`f"canvas_ann_{announcement.get('id')}"`): a missing id renders as `"None"`. -/
def pyStrOptNat : Option Nat → String
  | none => "None"
  | some n => toString n

/-- Fernet encryption from src/utils/encryption.py, modelled as an abstract
reversible encoding (a fixed marker standing in for the ciphertext transform);
the spec treats token encryption at rest as an external collaborator. -/
def encrypt_token (t : String) : String := "fernet:" ++ t

/-- Fernet decryption from src/utils/encryption.py, inverse of the modelled
`encrypt_token`. -/
def decrypt_token (t : String) : String :=
  if t.data.take 7 = "fernet:".data then ⟨t.data.drop 7⟩ else t

/-! ## Database schema (src/database/models.py) -/

/-- Column names of the `sent_reminders` table (src/database/models.py:31-41). -/
def sentReminderColumns : List String :=
  ["id", "discord_user_id", "reminder_type", "event_id", "scheduled_time", "sent_at"]

/-- Column sets carrying a uniqueness guarantee in the `sent_reminders` schema
(src/database/models.py:31-41): only the autoincrement primary key `id`.  The
model declares no `UniqueConstraint`, no `unique=True` column, and no
`__table_args__`. -/
def sentReminderUniqueSets : List (List String) := [["id"]]

/-- One row of the `sent_reminders` table, restricted to the three columns that
every dedup query and insert in src/scheduler/reminders.py uses
(`discord_user_id`, `reminder_type`, `event_id`).  The audit-only columns
(`id`, `scheduled_time`, `sent_at`) are recorded in `sentReminderColumns` and
never participate in dedup decisions. -/
structure SentReminderRow where
  discord_user_id : String
  reminder_type : String
  event_id : String
deriving DecidableEq, Repr

/-- One row of the `google_accounts` table (src/database/models.py:18-28). -/
structure GoogleAccountRow where
  id : Nat
  discord_user_id : String
  account_email : String
  refresh_token : String
  access_token : Option String
  token_expires_at : Option Int
deriving DecidableEq, Repr

/-- Modelled from the spec: the `CanvasAccount` model is re-exported by
src/database/__init__.py and used throughout src (scheduler, link/canvas
commands), but its class definition is missing from src/database/models.py.
Fields follow the Account data model of the spec (owning user handle, provider
instance URL, encrypted credential) and the constructor call in
src/commands/link_commands.py. -/
structure CanvasAccountRow where
  id : Nat
  discord_user_id : String
  canvas_url : String
  api_token : String
deriving DecidableEq, Repr

/-- The per-row predicate of every `SentReminder` dedup query in
src/scheduler/reminders.py: all three `where` clauses filter on
`discord_user_id`, `reminder_type` and `event_id` simultaneously. -/
def rowMatches (r : SentReminderRow) (u ty eid : String) : Bool :=
  r.discord_user_id == u && r.reminder_type == ty && r.event_id == eid

/-- The `select(SentReminder).where(...)`-then-`scalar_one_or_none()` check of
src/scheduler/reminders.py, as a membership test on the ledger rows. -/
def ledgerHasL (rows : List SentReminderRow) (u ty eid : String) : Bool :=
  rows.any fun r => rowMatches r u ty eid

/-! ## C1: the check-then-insert race on the ledger

The application performs a read (`ledgerHasL`) followed by a plain
`session.add`; since `sentReminderUniqueSets` carries no uniqueness on
(`discord_user_id`, `reminder_type`, `event_id`), an insert never conflicts.
Two overlapping runs of the `_send_hour_before_reminder` body interleaved as
check/check/insert/insert therefore both insert. -/

/-- Two concurrent executions of the check-then-insert body of
`_send_hour_before_reminder` (src/scheduler/reminders.py:182-228) for the same
(user, kind, dedup key) triple, interleaved so that both existence checks run
before either insert: each check sees an empty ledger, and each insert is a
plain append because the schema declares no unique constraint beyond the
primary key. -/
def hourBeforeRace (u eid : String) : List SentReminderRow :=
  let led0 : List SentReminderRow := []
  let check1 := ledgerHasL led0 u "hour_before" eid
  let check2 := ledgerHasL led0 u "hour_before" eid
  let led1 := if check1 then led0 else led0 ++ [⟨u, "hour_before", eid⟩]
  let led2 := if check2 then led1 else led1 ++ [⟨u, "hour_before", eid⟩]
  led2

/-- C1: the claim that ledger uniqueness on (user, reminder kind, dedup key) is
enforced at the persistence layer fails on the code.  The `sent_reminders`
schema declares no unique constraint on that triple (its only unique column
set is the autoincrement primary key), and consequently two interleaved runs
of the hour-before job body for the same triple — each passing the
application-level existence check before either inserts — leave two ledger
rows for the triple. -/
theorem ledger_uniqueness_not_persistence_enforced :
    sentReminderUniqueSets.contains ["discord_user_id", "reminder_type", "event_id"] = false
    ∧ (hourBeforeRace "u1" "ev1").countP
        (fun r => rowMatches r "u1" "hour_before" "ev1") = 2 := by
  constructor
  · rfl
  · rfl

/-! ## C10: the database package re-export -/

/-- Top-level names bound in the module `database.models`
(src/database/models.py): its imports plus `Base` and the three declared model
classes.  No `CanvasAccount` class is defined there. -/
def modelsModuleNames : List String :=
  ["datetime", "Column", "String", "Integer", "DateTime", "ForeignKey", "Text",
   "relationship", "declarative_base", "Base", "User", "GoogleAccount", "SentReminder"]

/-- Names that src/database/__init__.py line 2 imports from `.models`. -/
def databaseInitModelImports : List String :=
  ["Base", "User", "GoogleAccount", "CanvasAccount", "SentReminder"]

/-- Python `from .models import a, b, ...` succeeds exactly when every
requested name is bound at top level in the target module; otherwise it raises
`ImportError` at package-import time. -/
def databaseImportSucceeds : Bool :=
  databaseInitModelImports.all fun n => modelsModuleNames.contains n

/-- C10: the claim that every name re-exported by the database package is
defined in `database.models` fails on the code: `CanvasAccount` is imported by
src/database/__init__.py but no such class exists in src/database/models.py,
so importing the database package (and hence the scheduler and command
modules) raises `ImportError`. -/
theorem database_reexport_canvas_account_missing :
    databaseInitModelImports.contains "CanvasAccount" = true
    ∧ modelsModuleNames.contains "CanvasAccount" = false
    ∧ databaseImportSucceeds = false := by
  refine ⟨rfl, rfl, rfl⟩

/-! ## Normalized items -/

/-- A normalized Google Calendar event as built by `get_events`
(src/integrations/google_calendar.py:94-151).  The `end` key is called
`endTime` here because `end` is reserved in Lean. -/
structure GEvent where
  id : Option String
  title : String
  date : Option String
  endTime : Option String
  description : Option String
  location : Option String
deriving DecidableEq, Repr

/-- A normalized Canvas assignment as built by `get_assignments`
(src/integrations/canvas.py), restricted to the fields the scheduler and the
renderer consume (`id`, `title`/`name`, `due_at`, `course`). -/
structure CAssignment where
  id : Option Nat
  title : String
  due_at : Option String
  course : String
deriving DecidableEq, Repr

/-- A Canvas announcement as built by `get_announcements`
(src/integrations/canvas.py), restricted to the fields
`_send_announcement_notification` consumes. -/
structure Announcement where
  id : Option Nat
  title : String
  message : String
  course : String
deriving DecidableEq, Repr

/-- The hour-before dedup key: `str(event.get("id"))` in
src/scheduler/reminders.py:184 and 219. -/
def eventKey (e : GEvent) : String := pyStrOpt e.id

/-- The announcement dedup key: `f"canvas_ann_{announcement.get('id')}"` in
src/scheduler/reminders.py:259. -/
def annKey (a : Announcement) : String := "canvas_ann_" ++ pyStrOptNat a.id

/-! ## Session state

A SQLAlchemy `async_session` holds an in-memory working copy (`mem`: the
identity map of loaded rows plus pending `session.add`s, which queries in the
same session observe) and a last-committed snapshot (`disk`).  `commit`
publishes `mem` to `disk`; closing the session without committing discards
`mem`. -/

/-- The persisted tables the scheduler touches. -/
structure DBState where
  users : List String
  googleAccounts : List GoogleAccountRow
  canvasAccounts : List CanvasAccountRow
  sentReminders : List SentReminderRow
deriving DecidableEq, Repr

/-- A live session: in-memory working state plus the committed snapshot. -/
structure SessionState where
  mem : DBState
  disk : DBState
deriving DecidableEq, Repr

/-- `await session.commit()`: publish the working state. -/
def commit (st : SessionState) : SessionState := { st with disk := st.mem }

/-- Outcome of the `fetch_user` + `send` try-block of a reminder job:
`delivered` is the path reaching past `await discord_user.send(...)`;
`userFalsy` is `fetch_user` returning a falsy value (the `if discord_user:`
guard fails silently); `forbidden` is `discord.Forbidden` (DMs disabled);
`failed` is any other exception inside the block (lookup error, date-parse
error, transient send error). -/
inductive DeliverOutcome
  | delivered
  | userFalsy
  | forbidden
  | failed
deriving DecidableEq, Repr

/-- The in-place ORM mutation `account.access_token = new_token;
account.token_expires_at = new_expiry` applied to the identity-mapped row. -/
def updateGoogleToken (accs : List GoogleAccountRow) (accId : Nat)
    (tok : String) (exp : Option Int) : List GoogleAccountRow :=
  accs.map fun a =>
    if a.id == accId then { a with access_token := some tok, token_expires_at := exp } else a

/-! ## Daily summary job (src/scheduler/reminders.py:57-150) -/

/-- Oracles for one daily-summary run: the outcome of
`google_client.get_upcoming_events` per Google account (`.error` models a
raised exception), the outcome of `canvas_client.get_assignments` per Canvas
account, and the delivery outcome per user. -/
structure DailyEnv where
  googleFetch : GoogleAccountRow → Except Unit (List GEvent × Option String × Option Int)
  canvasFetch : CanvasAccountRow → Except Unit (List CAssignment)
  deliver : String → DeliverOutcome

/-- Observable actions of one `_send_user_daily_summary` call: ids of accounts
on which a provider fetch was issued, whether the delivery block ran, whether
the DM went out, and whether a ledger row was added. -/
structure DailyTrace where
  googleFetched : List Nat
  canvasFetched : List Nat
  deliveryAttempted : Bool
  delivered : Bool
  ledgerWritten : Bool
deriving DecidableEq, Repr

/-- The `for account in google_accounts:` loop of `_send_user_daily_summary`
(src/scheduler/reminders.py:91-103): fetch, extend the merged event list, and
apply any rotated token to the in-memory row; a raised exception skips just
that account. -/
def runDailyGoogleFetches (env : DailyEnv) :
    List GoogleAccountRow → DBState → List GEvent × DBState × List Nat
  | [], mem => ([], mem, [])
  | a :: rest, mem =>
    match env.googleFetch a with
    | .error _ =>
      let (evs, mem', ids) := runDailyGoogleFetches env rest mem
      (evs, mem', a.id :: ids)
    | .ok (evs0, newTok, newExp) =>
      let mem1 :=
        if pyTruthyStr newTok then
          { mem with googleAccounts :=
              updateGoogleToken mem.googleAccounts a.id (newTok.getD "") newExp }
        else mem
      let (evs, mem', ids) := runDailyGoogleFetches env rest mem1
      (evs0 ++ evs, mem', a.id :: ids)

/-- The `for account in canvas_accounts:` loop of `_send_user_daily_summary`
(src/scheduler/reminders.py:112-121): fetch and extend the merged assignment
list; a raised exception skips just that account. -/
def runDailyCanvasFetches (env : DailyEnv) :
    List CanvasAccountRow → List CAssignment × List Nat
  | [] => ([], [])
  | a :: rest =>
    let (asg, ids) := runDailyCanvasFetches env rest
    match env.canvasFetch a with
    | .error _ => (asg, a.id :: ids)
    | .ok l => (l ++ asg, a.id :: ids)

/-- `_send_user_daily_summary` (src/scheduler/reminders.py:66-150): dedup
check on (user, "daily_summary", today) first; then the per-account Google and
Canvas fetch loops; skip when the merged result is empty; otherwise deliver,
and only on a successful send add the ledger row and commit. -/
def sendUserDailySummary (env : DailyEnv) (userId today : String)
    (st : SessionState) : SessionState × DailyTrace :=
  if ledgerHasL st.mem.sentReminders userId "daily_summary" today then
    (st, ⟨[], [], false, false, false⟩)
  else
    let gAccts := st.mem.googleAccounts.filter fun a => a.discord_user_id == userId
    let (gEvents, mem1, gFetched) := runDailyGoogleFetches env gAccts st.mem
    let cAccts := mem1.canvasAccounts.filter fun a => a.discord_user_id == userId
    let (cAssignments, cFetched) := runDailyCanvasFetches env cAccts
    if gEvents.isEmpty && cAssignments.isEmpty then
      ({ st with mem := mem1 }, ⟨gFetched, cFetched, false, false, false⟩)
    else
      match env.deliver userId with
      | .delivered =>
        let row : SentReminderRow := ⟨userId, "daily_summary", today⟩
        let mem2 := { mem1 with sentReminders := mem1.sentReminders ++ [row] }
        (commit { st with mem := mem2 }, ⟨gFetched, cFetched, true, true, true⟩)
      | _ => ({ st with mem := mem1 }, ⟨gFetched, cFetched, true, false, false⟩)

/-- `send_daily_summaries` (src/scheduler/reminders.py:57-64): one session for
the whole run, iterating every user; the session closes (discarding
uncommitted working state) at the end. -/
def sendDailySummaries (env : DailyEnv) (today : String)
    (st0 : SessionState) : SessionState × List DailyTrace :=
  (st0.mem.users.foldl
    (fun (p : SessionState × List DailyTrace) u =>
      let (st, tr) := sendUserDailySummary env u today p.1
      (st, p.2 ++ [tr]))
    (st0, []))

/-! ## Hour-before job (src/scheduler/reminders.py:152-228) -/

/-- Oracles for one hour-before run: the outcome of
`google_client.get_events_starting_soon` per account, and the delivery outcome
per (user, event). -/
structure HourEnv where
  googleFetchSoon : GoogleAccountRow → Except Unit (List GEvent × Option String × Option Int)
  deliver : String → GEvent → DeliverOutcome

/-- `_send_hour_before_reminder` (src/scheduler/reminders.py:182-228): dedup
check on (user, "hour_before", str(event id)); on a successful send,
`session.add` the ledger row (the caller commits).  Returns the ledger rows
plus whether the DM went out. -/
def sendHourBeforeReminder (env : HourEnv) (userId : String) (e : GEvent)
    (led : List SentReminderRow) : List SentReminderRow × Bool :=
  let eid := eventKey e
  if ledgerHasL led userId "hour_before" eid then (led, false)
  else
    match env.deliver userId e with
    | .delivered => (led ++ [⟨userId, "hour_before", eid⟩], true)
    | _ => (led, false)

/-- The `for event in events:` loop inside `check_hour_before_reminders`
(src/scheduler/reminders.py:170-176), threading the session's pending ledger
rows; also returns the (user, event key) pairs actually delivered. -/
def hourEventsLoop (env : HourEnv) (u : String) :
    List GEvent → List SentReminderRow → List SentReminderRow × List (String × String)
  | [], led => (led, [])
  | e :: rest, led =>
    let (led1, sent) := sendHourBeforeReminder env u e led
    let (ledF, dels) := hourEventsLoop env u rest led1
    (ledF, (if sent then [(u, eventKey e)] else []) ++ dels)

/-- The `for account in google_accounts:` loop of `check_hour_before_reminders`
(src/scheduler/reminders.py:157-180): per account, fetch the events starting
soon, apply any rotated token to the in-memory row, send each event's
reminder, then commit; any exception in the account's block (in particular a
failed fetch) skips that account entirely, leaving the session untouched. -/
def hourLoop (env : HourEnv) :
    List GoogleAccountRow → SessionState → SessionState × List (String × String)
  | [], st => (st, [])
  | a :: rest, st =>
    match env.googleFetchSoon a with
    | .error _ => hourLoop env rest st
    | .ok (events, newTok, newExp) =>
      let mem :=
        if pyTruthyStr newTok then
          { st.mem with googleAccounts :=
              updateGoogleToken st.mem.googleAccounts a.id (newTok.getD "") newExp }
        else st.mem
      let (led, dels) := hourEventsLoop env a.discord_user_id events mem.sentReminders
      let st1 := commit { st with mem := { mem with sentReminders := led } }
      let (stF, delsRest) := hourLoop env rest st1
      (stF, dels ++ delsRest)

/-- `check_hour_before_reminders` (src/scheduler/reminders.py:152-180): one
session, iterating every Google account directly (not grouped by user). -/
def checkHourBeforeReminders (env : HourEnv) (st0 : SessionState) :
    SessionState × List (String × String) :=
  hourLoop env st0.mem.googleAccounts st0

/-! ## Announcement job (src/scheduler/reminders.py:230-307) -/

/-- Oracles for one announcement run: the outcome of
`canvas_client.get_announcements` per Canvas account, and the delivery outcome
per (user, announcement). -/
structure AnnEnv where
  canvasAnnFetch : CanvasAccountRow → Except Unit (List Announcement)
  deliver : String → Announcement → DeliverOutcome

/-- `_send_announcement_notification` (src/scheduler/reminders.py:257-307):
dedup check on (user, "announcement", namespaced announcement key); on a
successful send, `session.add` the ledger row (the caller commits). -/
def sendAnnouncementNotification (env : AnnEnv) (userId : String)
    (ann : Announcement) (led : List SentReminderRow) :
    List SentReminderRow × Bool :=
  let annId := annKey ann
  if ledgerHasL led userId "announcement" annId then (led, false)
  else
    match env.deliver userId ann with
    | .delivered => (led ++ [⟨userId, "announcement", annId⟩], true)
    | _ => (led, false)

/-- The `for ann in announcements:` loop inside `check_canvas_announcements`
(src/scheduler/reminders.py:246-251). -/
def annItemsLoop (env : AnnEnv) (u : String) :
    List Announcement → List SentReminderRow → List SentReminderRow × List (String × String)
  | [], led => (led, [])
  | a :: rest, led =>
    let (led1, sent) := sendAnnouncementNotification env u a led
    let (ledF, dels) := annItemsLoop env u rest led1
    (ledF, (if sent then [(u, annKey a)] else []) ++ dels)

/-- The `for account in canvas_accounts:` loop of `check_canvas_announcements`
(src/scheduler/reminders.py:235-255): per account, fetch recent announcements,
notify each, then commit; any exception in the account's block skips that
account entirely. -/
def annLoop (env : AnnEnv) :
    List CanvasAccountRow → SessionState → SessionState × List (String × String)
  | [], st => (st, [])
  | a :: rest, st =>
    match env.canvasAnnFetch a with
    | .error _ => annLoop env rest st
    | .ok anns =>
      let (led, dels) := annItemsLoop env a.discord_user_id anns st.mem.sentReminders
      let st1 := commit { st with mem := { st.mem with sentReminders := led } }
      let (stF, delsRest) := annLoop env rest st1
      (stF, dels ++ delsRest)

/-- `check_canvas_announcements` (src/scheduler/reminders.py:230-255): one
session, iterating every Canvas account. -/
def checkCanvasAnnouncements (env : AnnEnv) (st0 : SessionState) :
    SessionState × List (String × String) :=
  annLoop env st0.mem.canvasAccounts st0

/-! ## Google token refresh and event fetch
(src/integrations/google_calendar.py) -/

/-- One page of the Google Calendar events API response consumed by the
pagination loop of `get_events`: HTTP status, the normalized items of the
page, and `nextPageToken`. -/
structure Page where
  status : Nat
  items : List GEvent
  nextPageToken : Option String
deriving Repr

/-- `_get_valid_token` (src/integrations/google_calendar.py:65-92).  Times are
minutes since an arbitrary epoch.  `refreshCall` is the outcome of the
blocking `credentials.refresh(Request())` call: `some (token, expiry)` on
success, `none` when it raises.  The token is refreshed only when a stored
expiry exists, `now` has passed `expiry - 5`, and a truthy refresh token is
stored; otherwise the stored (decrypted) access token is returned with no
rotation. -/
def getValidToken (access : String) (refresh : Option String)
    (token_expires_at : Option Int) (now : Int)
    (refreshCall : Option (String × Int)) :
    Except Unit (String × Option String × Option Int) :=
  let decrypted_access := decrypt_token access
  let decrypted_refresh : Option String :=
    if pyTruthyStr refresh then some (decrypt_token (refresh.getD "")) else none
  match token_expires_at with
  | some exp =>
    if exp - 5 ≤ now then
      match decrypted_refresh with
      | some _ =>
        match refreshCall with
        | some (newTok, newExp) => .ok (newTok, some (encrypt_token newTok), some newExp)
        | none => .error ()
      | none => .ok (decrypted_access, none, none)
    else .ok (decrypted_access, none, none)
  | none => .ok (decrypted_access, none, none)

/-- The `while True:` pagination loop of `get_events`
(src/integrations/google_calendar.py:110-148): a non-200 status breaks out of
the loop (keeping the events accumulated so far), a 200 page's items are
appended, and a falsy `nextPageToken` ends the loop. -/
def getEventsLoop : List Page → List GEvent → List GEvent
  | [], acc => acc
  | p :: rest, acc =>
    if p.status ≠ 200 then acc
    else
      let acc1 := acc ++ p.items
      if pyTruthyStr p.nextPageToken then getEventsLoop rest acc1 else acc1

/-- `get_events` (src/integrations/google_calendar.py:94-151): obtain a valid
token via `_get_valid_token` (an exception there propagates to the caller),
then page through the provider responses; the rotated encrypted token and
expiry, if any, are returned alongside the events. -/
def get_events (access : String) (refresh : Option String)
    (token_expires_at : Option Int) (now : Int)
    (refreshCall : Option (String × Int)) (pages : List Page) :
    Except Unit (List GEvent × Option String × Option Int) :=
  match getValidToken access refresh token_expires_at now refreshCall with
  | .error e => .error e
  | .ok (_, newEnc, newExp) => .ok (getEventsLoop pages [], newEnc, newExp)

/-! ## Ordering and the daily summary renderer
(src/utils/calendar_renderer.py:275-337)

Python compares strings lexicographically by code point and `sorted` is a
stable ascending sort; both are modelled executably. -/

/-- Lexicographic strict order on character lists by code point, as Python
compares strings. -/
def lexLtB : List Char → List Char → Bool
  | [], [] => false
  | [], _ :: _ => true
  | _ :: _, [] => false
  | a :: as, b :: bs =>
    a.toNat < b.toNat || (a.toNat == b.toNat && lexLtB as bs)

/-- Python `a < b` on strings. -/
def strLtB (a b : String) : Bool := lexLtB a.data b.data

/-- Python `a <= b` on strings (equivalently: not `b < a`). -/
def strLeB (a b : String) : Bool := !(strLtB b a)

/-- Insert into a sorted list, keeping earlier-inserted equal elements stable:
`a` goes in front of the first `b` with `le a b`. -/
def orderedInsertB {α : Type} (le : α → α → Bool) (a : α) : List α → List α
  | [] => [a]
  | b :: l => if le a b then a :: b :: l else b :: orderedInsertB le a l

/-- Stable ascending sort, modelling Python `sorted(..., key=...)`. -/
def insertionSortB {α : Type} (le : α → α → Bool) : List α → List α
  | [] => []
  | a :: l => orderedInsertB le a (insertionSortB le l)

/-- Adjacent-chain sortedness of a list under a Boolean order. -/
def sortedB {α : Type} (le : α → α → Bool) : List α → Bool
  | [] => true
  | [_] => true
  | a :: b :: l => le a b && sortedB le (b :: l)

/-- The Google-section sort key of `render_daily_summary_embed`:
`e.get("date", "")` (src/utils/calendar_renderer.py:292). -/
def gKey (e : GEvent) : String := e.date.getD ""

/-- The Canvas-section sort key of `render_daily_summary_embed`:
`x.get("due_at", "")` (src/utils/calendar_renderer.py:316). -/
def cKey (a : CAssignment) : String := a.due_at.getD ""

/-- Start-time keys of the Google Calendar field lines of
`render_daily_summary_embed`, in rendered order: the events sorted ascending
by date, truncated to the first 10. -/
def googleSectionKeys (g : List GEvent) : List String :=
  ((insertionSortB (fun a b => strLeB (gKey a) (gKey b)) g).take 10).map gKey

/-- Due-time keys of the Canvas assignment field lines of
`render_daily_summary_embed`, in rendered order: the assignments sorted
ascending by due date, truncated to the first 10. -/
def canvasSectionKeys (c : List CAssignment) : List String :=
  ((insertionSortB (fun a b => strLeB (cKey a) (cKey b)) c).take 10).map cKey

/-- Start-time keys of all item lines of the daily summary embed in rendered
order: the whole Google Calendar section first, then the whole Canvas
assignments section (src/utils/calendar_renderer.py:275-337). -/
def renderDailySummaryOrder (g : List GEvent) (c : List CAssignment) : List String :=
  googleSectionKeys g ++ canvasSectionKeys c

/-! ## Sortedness lemmas for the Boolean order -/

/-- The strict lexicographic order is asymmetric. -/
theorem lexLtB_asymm : ∀ x y : List Char, lexLtB x y = true → lexLtB y x = false
  | [], [], h => by simp [lexLtB] at h
  | [], _ :: _, _ => by simp [lexLtB]
  | _ :: _, [], h => by simp [lexLtB] at h
  | a :: as, b :: bs, h => by
    have h' : a.toNat < b.toNat ∨ (a.toNat = b.toNat ∧ lexLtB as bs = true) := by
      simpa [lexLtB] using h
    show (decide (b.toNat < a.toNat) || (b.toNat == a.toNat && lexLtB bs as)) = false
    apply Bool.or_eq_false_iff.mpr
    constructor
    · simp only [decide_eq_false_iff_not]
      rcases h' with h1 | ⟨heq, _⟩ <;> omega
    · apply Bool.and_eq_false_iff.mpr
      rcases h' with h1 | ⟨heq, hlt⟩
      · refine Or.inl ?_
        simp only [beq_eq_false_iff_ne, ne_eq]
        omega
      · exact Or.inr (lexLtB_asymm as bs hlt)

/-- Totality of the modelled string order, in the form the insertion lemma
consumes. -/
theorem strLeB_total (a b : String) (h : strLeB a b = false) : strLeB b a = true := by
  unfold strLeB strLtB at h ⊢
  cases hba : lexLtB b.data a.data with
  | false => rw [hba] at h; simp at h
  | true => simp [lexLtB_asymm _ _ hba]

/-- Head comparison used to decompose `sortedB` at a cons. -/
def headLeB {α : Type} (le : α → α → Bool) (b : α) : List α → Bool
  | [] => true
  | x :: _ => le b x

/-- Chain sortedness at a cons splits into a head comparison and sortedness of
the tail. -/
theorem sortedB_cons {α : Type} (le : α → α → Bool) (b : α) (l : List α) :
    sortedB le (b :: l) = (headLeB le b l && sortedB le l) := by
  cases l <;> simp [sortedB, headLeB]

/-- Inserting an element below the head keeps the head comparison. -/
theorem headLeB_orderedInsertB {α : Type} (le : α → α → Bool) (b a : α)
    (l : List α) (hba : le b a = true) (hhd : headLeB le b l = true) :
    headLeB le b (orderedInsertB le a l) = true := by
  cases l with
  | nil => simpa [orderedInsertB, headLeB] using hba
  | cons c t =>
    by_cases hac : le a c = true
    · simp [orderedInsertB, hac, headLeB, hba]
    · simp only [Bool.not_eq_true] at hac
      simp only [orderedInsertB, hac, if_false]
      simpa [headLeB] using hhd

/-- Ordered insertion preserves chain sortedness, assuming totality. -/
theorem sortedB_orderedInsertB {α : Type} (le : α → α → Bool)
    (htot : ∀ a b, le a b = false → le b a = true) (a : α) :
    ∀ l : List α, sortedB le l = true → sortedB le (orderedInsertB le a l) = true
  | [], _ => by simp [orderedInsertB, sortedB]
  | b :: l, h => by
    rw [sortedB_cons, Bool.and_eq_true] at h
    obtain ⟨hhd, htl⟩ := h
    by_cases hab : le a b = true
    · simp only [orderedInsertB, hab, if_true]
      rw [sortedB_cons, sortedB_cons, Bool.and_eq_true, Bool.and_eq_true]
      exact ⟨hab, hhd, htl⟩
    · simp only [Bool.not_eq_true] at hab
      have hstep : orderedInsertB le a (b :: l) = b :: orderedInsertB le a l := by
        simp [orderedInsertB, hab]
      rw [hstep, sortedB_cons, Bool.and_eq_true]
      exact ⟨headLeB_orderedInsertB le b a l (htot a b hab) hhd,
        sortedB_orderedInsertB le htot a l htl⟩

/-- The modelled Python `sorted` produces a chain-sorted list. -/
theorem sortedB_insertionSortB {α : Type} (le : α → α → Bool)
    (htot : ∀ a b, le a b = false → le b a = true) :
    ∀ l : List α, sortedB le (insertionSortB le l) = true
  | [] => rfl
  | a :: l =>
    sortedB_orderedInsertB le htot a (insertionSortB le l)
      (sortedB_insertionSortB le htot l)

/-- Truncation (`[:10]` in the renderer) preserves chain sortedness. -/
theorem sortedB_take {α : Type} (le : α → α → Bool) :
    ∀ (l : List α) (n : Nat), sortedB le l = true → sortedB le (l.take n) = true
  | [], n, _ => by cases n <;> simp [sortedB]
  | a :: t, 0, _ => rfl
  | a :: t, n + 1, h => by
    rw [sortedB_cons, Bool.and_eq_true] at h
    obtain ⟨hhd, htl⟩ := h
    rw [List.take_succ_cons, sortedB_cons, Bool.and_eq_true]
    refine ⟨?_, sortedB_take le t n htl⟩
    cases t with
    | nil => simp [headLeB]
    | cons c t' =>
      cases n
      · simp [headLeB, List.take]
      · simpa [headLeB, List.take] using hhd

/-- Mapping a sort key out of a list chain-sorted under the keyed order yields
a chain-sorted key list. -/
theorem sortedB_map {α : Type} (le : String → String → Bool) (k : α → String) :
    ∀ l : List α, sortedB (fun a b => le (k a) (k b)) l = true →
      sortedB le (l.map k) = true
  | [], _ => rfl
  | [_], _ => rfl
  | a :: b :: t, h => by
    simp only [sortedB, Bool.and_eq_true] at h
    have := sortedB_map le k (b :: t) h.2
    simp only [List.map, sortedB, Bool.and_eq_true] at this ⊢
    exact ⟨h.1, this⟩

/-! ## C7: ordering of the daily summary -/

/-- C7 counterexample: the daily summary does not render one merged
ascending-by-start-time list.  With one Google event starting 2026-01-02 and
one Canvas assignment due 2026-01-01, the rendered sequence puts the later
Google item before the earlier Canvas item, because the embed renders the two
sources as separate sections (Google Calendar first), each sorted only
internally. -/
theorem daily_render_not_globally_sorted :
    renderDailySummaryOrder
        [⟨some "g1", "Standup", some "2026-01-02T10:00:00", none, none, none⟩]
        [⟨some 7, "Essay", some "2026-01-01T09:00:00", "Math"⟩]
      = ["2026-01-02T10:00:00", "2026-01-01T09:00:00"]
    ∧ sortedB strLeB (renderDailySummaryOrder
        [⟨some "g1", "Standup", some "2026-01-02T10:00:00", none, none, none⟩]
        [⟨some 7, "Essay", some "2026-01-01T09:00:00", "Math"⟩]) = false := by
  exact ⟨by decide, by decide⟩

/-- C7 (amended): within the daily summary embed, each source section is
rendered in ascending start-time order — the Google events merged across all
of the user's calendar accounts are sorted ascending by start time, and the
Canvas assignments merged across all coursework accounts are sorted ascending
by due time — but the two sections are concatenated (Google first), not
interleaved into one globally sorted list. -/
theorem daily_render_sections_sorted (g : List GEvent) (c : List CAssignment) :
    sortedB strLeB (googleSectionKeys g) = true
    ∧ sortedB strLeB (canvasSectionKeys c) = true := by
  constructor
  · apply sortedB_map
    apply sortedB_take
    exact sortedB_insertionSortB _ (fun a b h => strLeB_total _ _ h) g
  · apply sortedB_map
    apply sortedB_take
    exact sortedB_insertionSortB _ (fun a b h => strLeB_total _ _ h) c

/-! ## Invariants of the daily fetch loops -/

/-- The Google fetch loop of the daily summary only ever mutates the
`google_accounts` rows: users, Canvas accounts and the ledger pass through
untouched. -/
theorem runDailyGoogleFetches_fields (env : DailyEnv) :
    ∀ (accts : List GoogleAccountRow) (mem : DBState),
      (runDailyGoogleFetches env accts mem).2.1.users = mem.users
      ∧ (runDailyGoogleFetches env accts mem).2.1.canvasAccounts = mem.canvasAccounts
      ∧ (runDailyGoogleFetches env accts mem).2.1.sentReminders = mem.sentReminders
  | [], mem => ⟨rfl, rfl, rfl⟩
  | a :: rest, mem => by
    cases hf : env.googleFetch a with
    | error e =>
      simpa [runDailyGoogleFetches, hf] using runDailyGoogleFetches_fields env rest mem
    | ok res =>
      obtain ⟨evs0, newTok, newExp⟩ := res
      by_cases ht : pyTruthyStr newTok = true
      · simpa [runDailyGoogleFetches, hf, ht] using
          runDailyGoogleFetches_fields env rest
            { mem with googleAccounts :=
                updateGoogleToken mem.googleAccounts a.id (newTok.getD "") newExp }
      · simp only [Bool.not_eq_true] at ht
        simpa [runDailyGoogleFetches, hf, ht] using runDailyGoogleFetches_fields env rest mem

/-- When every Google fetch for the processed accounts raises or returns no
events, the merged Google event list is empty. -/
theorem runDailyGoogleFetches_events_nil (env : DailyEnv) :
    ∀ (accts : List GoogleAccountRow) (mem : DBState),
      (∀ a ∈ accts, ∀ l t x, env.googleFetch a = .ok (l, t, x) → l = []) →
      (runDailyGoogleFetches env accts mem).1 = []
  | [], _, _ => rfl
  | a :: rest, mem, h => by
    have hrest : ∀ a' ∈ rest, ∀ l t x, env.googleFetch a' = .ok (l, t, x) → l = [] :=
      fun a' ha' => h a' (List.mem_cons_of_mem a ha')
    cases hf : env.googleFetch a with
    | error e =>
      simpa [runDailyGoogleFetches, hf] using
        runDailyGoogleFetches_events_nil env rest mem hrest
    | ok res =>
      obtain ⟨evs0, newTok, newExp⟩ := res
      have h0 : evs0 = [] := h a (List.mem_cons_self a rest) evs0 newTok newExp hf
      subst h0
      by_cases ht : pyTruthyStr newTok = true
      · simpa [runDailyGoogleFetches, hf, ht] using
          runDailyGoogleFetches_events_nil env rest
            { mem with googleAccounts :=
                updateGoogleToken mem.googleAccounts a.id (newTok.getD "") newExp } hrest
      · simp only [Bool.not_eq_true] at ht
        simpa [runDailyGoogleFetches, hf, ht] using
          runDailyGoogleFetches_events_nil env rest mem hrest

/-- When every Canvas fetch for the processed accounts raises or returns no
assignments, the merged assignment list is empty. -/
theorem runDailyCanvasFetches_nil (env : DailyEnv) :
    ∀ accts : List CanvasAccountRow,
      (∀ a ∈ accts, ∀ l, env.canvasFetch a = .ok l → l = []) →
      (runDailyCanvasFetches env accts).1 = []
  | [], _ => rfl
  | a :: rest, h => by
    have hrest : ∀ a' ∈ rest, ∀ l, env.canvasFetch a' = .ok l → l = [] :=
      fun a' ha' => h a' (List.mem_cons_of_mem a ha')
    cases hf : env.canvasFetch a with
    | error e =>
      simpa [runDailyCanvasFetches, hf] using runDailyCanvasFetches_nil env rest hrest
    | ok l =>
      have h0 : l = [] := h a (List.mem_cons_self a rest) l hf
      subst h0
      simpa [runDailyCanvasFetches, hf] using runDailyCanvasFetches_nil env rest hrest

/-! ## C4: the daily dedup check precedes every fetch -/

/-- C4: when a (user, "daily_summary", today) ledger row already exists, the
daily-summary run for that user returns immediately: the trace records no
Google fetch, no Canvas fetch, no delivery attempt and no ledger write, and
the session state is completely unchanged — the dedup check sits before the
account selects and fetch loops. -/
theorem daily_ledger_check_before_fetch (env : DailyEnv) (u today : String)
    (st : SessionState)
    (h : ledgerHasL st.mem.sentReminders u "daily_summary" today = true) :
    sendUserDailySummary env u today st = (st, ⟨[], [], false, false, false⟩) := by
  simp [sendUserDailySummary, h]

/-- C4 witness: a concrete session whose ledger already holds today's
daily-summary row for the user. -/
theorem daily_ledger_check_before_fetch_witness :
    ledgerHasL [⟨"u1", "daily_summary", "2026-10-12"⟩] "u1" "daily_summary" "2026-10-12" = true
    ∧ sendUserDailySummary
        ⟨fun _ => .ok ([], none, none), fun _ => .ok [], fun _ => .delivered⟩
        "u1" "2026-10-12"
        ⟨⟨["u1"], [], [], [⟨"u1", "daily_summary", "2026-10-12"⟩]⟩,
         ⟨["u1"], [], [], [⟨"u1", "daily_summary", "2026-10-12"⟩]⟩⟩
      = (⟨⟨["u1"], [], [], [⟨"u1", "daily_summary", "2026-10-12"⟩]⟩,
         ⟨["u1"], [], [], [⟨"u1", "daily_summary", "2026-10-12"⟩]⟩⟩,
         ⟨[], [], false, false, false⟩) :=
  ⟨by decide,
   daily_ledger_check_before_fetch
     ⟨fun _ => .ok ([], none, none), fun _ => .ok [], fun _ => .delivered⟩
     "u1" "2026-10-12"
     ⟨⟨["u1"], [], [], [⟨"u1", "daily_summary", "2026-10-12"⟩]⟩,
      ⟨["u1"], [], [], [⟨"u1", "daily_summary", "2026-10-12"⟩]⟩⟩
     (by decide)⟩

/-! ## C8: an empty merged item set sends nothing and writes nothing -/

/-- C8: if every provider fetch for the user's accounts raises or returns no
items (so the merged item set is empty), the daily-summary run attempts no
delivery, writes no ledger row, leaves the session's ledger untouched and
commits nothing. -/
theorem daily_empty_merge_no_send_no_ledger (env : DailyEnv) (u today : String)
    (st : SessionState)
    (hG : ∀ a ∈ st.mem.googleAccounts.filter (fun a => a.discord_user_id == u),
        ∀ l t x, env.googleFetch a = .ok (l, t, x) → l = [])
    (hC : ∀ a ∈ st.mem.canvasAccounts.filter (fun a => a.discord_user_id == u),
        ∀ l, env.canvasFetch a = .ok l → l = []) :
    (sendUserDailySummary env u today st).2.deliveryAttempted = false
    ∧ (sendUserDailySummary env u today st).2.ledgerWritten = false
    ∧ (sendUserDailySummary env u today st).1.mem.sentReminders = st.mem.sentReminders
    ∧ (sendUserDailySummary env u today st).1.disk = st.disk := by
  by_cases hled : ledgerHasL st.mem.sentReminders u "daily_summary" today = true
  · simp [sendUserDailySummary, hled]
  · simp only [Bool.not_eq_true] at hled
    obtain ⟨hu, hc, hs⟩ := runDailyGoogleFetches_fields env
      (st.mem.googleAccounts.filter (fun a => a.discord_user_id == u)) st.mem
    have hge : (runDailyGoogleFetches env
        (st.mem.googleAccounts.filter (fun a => a.discord_user_id == u)) st.mem).1 = [] :=
      runDailyGoogleFetches_events_nil env _ _ hG
    rcases hr : runDailyGoogleFetches env
        (st.mem.googleAccounts.filter (fun a => a.discord_user_id == u)) st.mem
      with ⟨gEvents, mem1, gFetched⟩
    rw [hr] at hge hu hc hs
    simp only at hge hu hc hs
    have hca : (runDailyCanvasFetches env
        (mem1.canvasAccounts.filter (fun a => a.discord_user_id == u))).1 = [] := by
      rw [hc]; exact runDailyCanvasFetches_nil env _ hC
    rcases hcf : runDailyCanvasFetches env
        (mem1.canvasAccounts.filter (fun a => a.discord_user_id == u))
      with ⟨cAssignments, cFetched⟩
    rw [hcf] at hca
    simp only at hca
    subst hge hca
    simp [sendUserDailySummary, hled, hr, hcf, hs]

/-- C8 witness: one Google account whose fetch raises, one whose fetch
returns no events, and one Canvas account returning no assignments. -/
theorem daily_empty_merge_no_send_no_ledger_witness :
    ((sendUserDailySummary
        ⟨fun a => if a.id == 1 then .error () else .ok ([], some "fernet:n", some 9),
         fun _ => .ok [], fun _ => .delivered⟩
        "u1" "2026-10-12"
        ⟨⟨["u1"], [⟨1, "u1", "a@x", "fernet:r", some "fernet:o", some 0⟩,
                   ⟨2, "u1", "b@x", "fernet:r2", some "fernet:p", some 0⟩],
          [⟨3, "u1", "https://c.edu", "fernet:t"⟩], []⟩,
         ⟨["u1"], [⟨1, "u1", "a@x", "fernet:r", some "fernet:o", some 0⟩,
                   ⟨2, "u1", "b@x", "fernet:r2", some "fernet:p", some 0⟩],
          [⟨3, "u1", "https://c.edu", "fernet:t"⟩], []⟩⟩).2.deliveryAttempted = false)
    ∧ ((sendUserDailySummary
        ⟨fun a => if a.id == 1 then .error () else .ok ([], some "fernet:n", some 9),
         fun _ => .ok [], fun _ => .delivered⟩
        "u1" "2026-10-12"
        ⟨⟨["u1"], [⟨1, "u1", "a@x", "fernet:r", some "fernet:o", some 0⟩,
                   ⟨2, "u1", "b@x", "fernet:r2", some "fernet:p", some 0⟩],
          [⟨3, "u1", "https://c.edu", "fernet:t"⟩], []⟩,
         ⟨["u1"], [⟨1, "u1", "a@x", "fernet:r", some "fernet:o", some 0⟩,
                   ⟨2, "u1", "b@x", "fernet:r2", some "fernet:p", some 0⟩],
          [⟨3, "u1", "https://c.edu", "fernet:t"⟩], []⟩⟩).2.ledgerWritten = false) := by
  have h := daily_empty_merge_no_send_no_ledger
    ⟨fun a => if a.id == 1 then .error () else .ok ([], some "fernet:n", some 9),
     fun _ => .ok [], fun _ => .delivered⟩
    "u1" "2026-10-12"
    ⟨⟨["u1"], [⟨1, "u1", "a@x", "fernet:r", some "fernet:o", some 0⟩,
               ⟨2, "u1", "b@x", "fernet:r2", some "fernet:p", some 0⟩],
      [⟨3, "u1", "https://c.edu", "fernet:t"⟩], []⟩,
     ⟨["u1"], [⟨1, "u1", "a@x", "fernet:r", some "fernet:o", some 0⟩,
               ⟨2, "u1", "b@x", "fernet:r2", some "fernet:p", some 0⟩],
      [⟨3, "u1", "https://c.edu", "fernet:t"⟩], []⟩⟩
    (by
      intro a ha l t x hfa
      by_cases h1 : a.id == 1
      · simp [h1] at hfa
      · simp [h1] at hfa
        exact hfa.1)
    (by
      intro a ha l hfa
      simp at hfa
      exact hfa)
  exact ⟨h.1, h.2.1⟩

/-! ## C2: ledger rows are written only after a successful delivery -/

/-- C2: in each of the three reminder jobs, a ledger row is added only on the
code path past a successful send, and a failed (or skipped) delivery leaves
the ledger for the triple untouched, so the reminder can be retried on a
future run.  For the daily summary additionally nothing is committed on
failure; for the hour-before and announcement send helpers the session rows
are returned unchanged on failure, and any row present after the call was
either already there or stems from a successful delivery. -/
theorem ledger_write_only_after_delivery (envD : DailyEnv) (u today : String)
    (st : SessionState) (envH : HourEnv) (e : GEvent) (envA : AnnEnv)
    (ann : Announcement) (led : List SentReminderRow) :
    (envD.deliver u ≠ .delivered →
      (sendUserDailySummary envD u today st).1.mem.sentReminders = st.mem.sentReminders
      ∧ (sendUserDailySummary envD u today st).1.disk = st.disk)
    ∧ (∀ r ∈ (sendUserDailySummary envD u today st).1.mem.sentReminders,
        r ∈ st.mem.sentReminders ∨ (envD.deliver u = .delivered
          ∧ r = ⟨u, "daily_summary", today⟩))
    ∧ (envH.deliver u e ≠ .delivered → (sendHourBeforeReminder envH u e led).1 = led)
    ∧ (∀ r ∈ (sendHourBeforeReminder envH u e led).1,
        r ∈ led ∨ (envH.deliver u e = .delivered ∧ r = ⟨u, "hour_before", eventKey e⟩))
    ∧ (envA.deliver u ann ≠ .delivered →
        (sendAnnouncementNotification envA u ann led).1 = led)
    ∧ (∀ r ∈ (sendAnnouncementNotification envA u ann led).1,
        r ∈ led ∨ (envA.deliver u ann = .delivered
          ∧ r = ⟨u, "announcement", annKey ann⟩)) := by
  obtain ⟨hmem, hdisk, hmemb⟩ : (envD.deliver u ≠ .delivered →
      (sendUserDailySummary envD u today st).1.mem.sentReminders = st.mem.sentReminders)
      ∧ (envD.deliver u ≠ .delivered →
        (sendUserDailySummary envD u today st).1.disk = st.disk)
      ∧ (∀ r ∈ (sendUserDailySummary envD u today st).1.mem.sentReminders,
        r ∈ st.mem.sentReminders ∨ (envD.deliver u = .delivered
          ∧ r = ⟨u, "daily_summary", today⟩)) := by
    by_cases hled : ledgerHasL st.mem.sentReminders u "daily_summary" today = true
    · refine ⟨by simp [sendUserDailySummary, hled],
        by simp [sendUserDailySummary, hled], ?_⟩
      simp only [sendUserDailySummary, hled, if_true]
      exact fun r hrm => Or.inl hrm
    · simp only [Bool.not_eq_true] at hled
      obtain ⟨hu, hc, hs⟩ := runDailyGoogleFetches_fields envD
        (st.mem.googleAccounts.filter (fun a => a.discord_user_id == u)) st.mem
      rcases hr : runDailyGoogleFetches envD
          (st.mem.googleAccounts.filter (fun a => a.discord_user_id == u)) st.mem
        with ⟨gEvents, mem1, gFetched⟩
      rw [hr] at hu hc hs
      simp only at hu hc hs
      rcases hcf : runDailyCanvasFetches envD
          (mem1.canvasAccounts.filter (fun a => a.discord_user_id == u))
        with ⟨cAssignments, cFetched⟩
      by_cases hemp : (gEvents.isEmpty && cAssignments.isEmpty) = true
      · refine ⟨by intro _; simp [sendUserDailySummary, hled, hr, hcf, hemp, hs],
          by intro _; simp [sendUserDailySummary, hled, hr, hcf, hemp], ?_⟩
        intro r hrm
        simp only [sendUserDailySummary, hled, Bool.false_eq_true, if_false, hr,
          hcf, hemp, if_true] at hrm
        rw [hs] at hrm
        exact Or.inl hrm
      · cases hdel : envD.deliver u with
        | delivered =>
          refine ⟨fun hne => absurd rfl hne, fun hne => absurd rfl hne, ?_⟩
          intro r hrmem
          simp only [sendUserDailySummary, hled, Bool.false_eq_true, if_false, hr,
            hcf, hemp, hdel, commit] at hrmem
          rw [hs] at hrmem
          rcases List.mem_append.mp hrmem with h | h
          · exact Or.inl h
          · simp only [List.mem_singleton] at h
            exact Or.inr ⟨rfl, h⟩
        | userFalsy =>
          simp [sendUserDailySummary, hled, hr, hcf, hemp, hdel, hs]
        | forbidden =>
          simp [sendUserDailySummary, hled, hr, hcf, hemp, hdel, hs]
        | failed =>
          simp [sendUserDailySummary, hled, hr, hcf, hemp, hdel, hs]
  refine ⟨fun hne => ⟨hmem hne, hdisk hne⟩, hmemb, ?_, ?_, ?_, ?_⟩
  · intro hne
    by_cases hl : ledgerHasL led u "hour_before" (eventKey e) = true
    · simp [sendHourBeforeReminder, hl]
    · simp only [Bool.not_eq_true] at hl
      cases hdel : envH.deliver u e with
      | delivered => exact absurd hdel hne
      | userFalsy => simp [sendHourBeforeReminder, hl, hdel]
      | forbidden => simp [sendHourBeforeReminder, hl, hdel]
      | failed => simp [sendHourBeforeReminder, hl, hdel]
  · intro r hrmem
    by_cases hl : ledgerHasL led u "hour_before" (eventKey e) = true
    · simp only [sendHourBeforeReminder, hl, if_true] at hrmem
      exact Or.inl hrmem
    · simp only [Bool.not_eq_true] at hl
      cases hdel : envH.deliver u e with
      | delivered =>
        simp only [sendHourBeforeReminder, hl, Bool.false_eq_true, if_false,
          hdel] at hrmem
        rcases List.mem_append.mp hrmem with h | h
        · exact Or.inl h
        · simp only [List.mem_singleton] at h
          exact Or.inr ⟨rfl, h⟩
      | userFalsy => simp only [sendHourBeforeReminder, hl, Bool.false_eq_true,
          if_false, hdel] at hrmem; exact Or.inl hrmem
      | forbidden => simp only [sendHourBeforeReminder, hl, Bool.false_eq_true,
          if_false, hdel] at hrmem; exact Or.inl hrmem
      | failed => simp only [sendHourBeforeReminder, hl, Bool.false_eq_true,
          if_false, hdel] at hrmem; exact Or.inl hrmem
  · intro hne
    by_cases hl : ledgerHasL led u "announcement" (annKey ann) = true
    · simp [sendAnnouncementNotification, hl]
    · simp only [Bool.not_eq_true] at hl
      cases hdel : envA.deliver u ann with
      | delivered => exact absurd hdel hne
      | userFalsy => simp [sendAnnouncementNotification, hl, hdel]
      | forbidden => simp [sendAnnouncementNotification, hl, hdel]
      | failed => simp [sendAnnouncementNotification, hl, hdel]
  · intro r hrmem
    by_cases hl : ledgerHasL led u "announcement" (annKey ann) = true
    · simp only [sendAnnouncementNotification, hl, if_true] at hrmem
      exact Or.inl hrmem
    · simp only [Bool.not_eq_true] at hl
      cases hdel : envA.deliver u ann with
      | delivered =>
        simp only [sendAnnouncementNotification, hl, Bool.false_eq_true, if_false,
          hdel] at hrmem
        rcases List.mem_append.mp hrmem with h | h
        · exact Or.inl h
        · simp only [List.mem_singleton] at h
          exact Or.inr ⟨rfl, h⟩
      | userFalsy => simp only [sendAnnouncementNotification, hl, Bool.false_eq_true,
          if_false, hdel] at hrmem; exact Or.inl hrmem
      | forbidden => simp only [sendAnnouncementNotification, hl, Bool.false_eq_true,
          if_false, hdel] at hrmem; exact Or.inl hrmem
      | failed => simp only [sendAnnouncementNotification, hl, Bool.false_eq_true,
          if_false, hdel] at hrmem; exact Or.inl hrmem

/-- C2 witness: a daily summary whose DM raises `Forbidden`, an hour-before
send that fails transiently and an announcement send refused — none of the
three leaves a ledger row. -/
theorem ledger_write_only_after_delivery_witness :
    (sendUserDailySummary
        ⟨fun _ => .ok ([⟨some "e1", "T", some "2026-10-12T09:00:00", none, none, none⟩],
            none, none),
         fun _ => .ok [], fun _ => .forbidden⟩
        "u1" "2026-10-12"
        ⟨⟨["u1"], [], [], []⟩, ⟨["u1"], [], [], []⟩⟩).1.mem.sentReminders = []
    ∧ (sendHourBeforeReminder ⟨fun _ => .ok ([], none, none), fun _ _ => .failed⟩
        "u1" ⟨some "e1", "T", some "2026-10-12T09:00:00", none, none, none⟩ []).1 = []
    ∧ (sendAnnouncementNotification ⟨fun _ => .ok [], fun _ _ => .forbidden⟩
        "u1" ⟨some 5, "T", "M", "C"⟩ []).1 = [] := by
  have h := ledger_write_only_after_delivery
    ⟨fun _ => .ok ([⟨some "e1", "T", some "2026-10-12T09:00:00", none, none, none⟩],
        none, none),
     fun _ => .ok [], fun _ => .forbidden⟩
    "u1" "2026-10-12"
    ⟨⟨["u1"], [], [], []⟩, ⟨["u1"], [], [], []⟩⟩
    ⟨fun _ => .ok ([], none, none), fun _ _ => .failed⟩
    ⟨some "e1", "T", some "2026-10-12T09:00:00", none, none, none⟩
    ⟨fun _ => .ok [], fun _ _ => .forbidden⟩
    ⟨some 5, "T", "M", "C"⟩ []
  exact ⟨(h.1 (by decide)).1, h.2.2.1 (by decide), h.2.2.2.2.1 (by decide)⟩

/-! ## C5: per-account failure isolation in the hour-before run -/

/-- C5: in an hour-before run over two linked accounts, a raised provider
fetch for the first account is caught and skipped — processing the pair is
the same as processing only the healthy account — and a deliverable, not yet
deduplicated event of the healthy second account is still delivered and its
ledger row committed. -/
theorem hour_before_failure_isolated (env : HourEnv) (st : SessionState)
    (a1 a2 : GoogleAccountRow) (e : GEvent)
    (h1 : env.googleFetchSoon a1 = .error ())
    (h2 : env.googleFetchSoon a2 = .ok ([e], none, none))
    (hLed : ledgerHasL st.mem.sentReminders a2.discord_user_id "hour_before"
      (eventKey e) = false)
    (hDel : env.deliver a2.discord_user_id e = .delivered) :
    hourLoop env [a1, a2] st = hourLoop env [a2] st
    ∧ (a2.discord_user_id, eventKey e) ∈ (hourLoop env [a1, a2] st).2
    ∧ (⟨a2.discord_user_id, "hour_before", eventKey e⟩ : SentReminderRow)
        ∈ (hourLoop env [a1, a2] st).1.disk.sentReminders := by
  have hskip : hourLoop env [a1, a2] st = hourLoop env [a2] st := by
    simp [hourLoop, h1]
  have hres : hourLoop env [a2] st =
      (commit { st with mem := { st.mem with sentReminders :=
          st.mem.sentReminders ++ [⟨a2.discord_user_id, "hour_before", eventKey e⟩] } },
        [(a2.discord_user_id, eventKey e)]) := by
    simp [hourLoop, h2, pyTruthyStr, hourEventsLoop, sendHourBeforeReminder, hLed, hDel]
  refine ⟨hskip, ?_, ?_⟩
  · rw [hskip, hres]; simp
  · rw [hskip, hres]; simp [commit]

/-- C5 witness: two accounts of different users, the first with a broken
credential, the second healthy with one event starting soon. -/
theorem hour_before_failure_isolated_witness :
    (hourLoop
        ⟨fun a => if a.id == 1 then .error () else
            .ok ([⟨some "e9", "Exam", some "2026-10-12T10:00:00", none, none, none⟩],
              none, none),
         fun _ _ => .delivered⟩
        [⟨1, "u1", "a@x", "fernet:r", some "fernet:o", some 0⟩,
         ⟨2, "u2", "b@x", "fernet:r2", some "fernet:p", some 0⟩]
        ⟨⟨["u1", "u2"], [], [], []⟩, ⟨["u1", "u2"], [], [], []⟩⟩).2
      = [("u2", "e9")]
    ∧ (⟨"u2", "hour_before", "e9"⟩ : SentReminderRow)
        ∈ (hourLoop
        ⟨fun a => if a.id == 1 then .error () else
            .ok ([⟨some "e9", "Exam", some "2026-10-12T10:00:00", none, none, none⟩],
              none, none),
         fun _ _ => .delivered⟩
        [⟨1, "u1", "a@x", "fernet:r", some "fernet:o", some 0⟩,
         ⟨2, "u2", "b@x", "fernet:r2", some "fernet:p", some 0⟩]
        ⟨⟨["u1", "u2"], [], [], []⟩, ⟨["u1", "u2"], [], [], []⟩⟩).1.disk.sentReminders := by
  have h := hour_before_failure_isolated
    ⟨fun a => if a.id == 1 then .error () else
        .ok ([⟨some "e9", "Exam", some "2026-10-12T10:00:00", none, none, none⟩],
          none, none),
     fun _ _ => .delivered⟩
    ⟨⟨["u1", "u2"], [], [], []⟩, ⟨["u1", "u2"], [], [], []⟩⟩
    ⟨1, "u1", "a@x", "fernet:r", some "fernet:o", some 0⟩
    ⟨2, "u2", "b@x", "fernet:r2", some "fernet:p", some 0⟩
    ⟨some "e9", "Exam", some "2026-10-12T10:00:00", none, none, none⟩
    rfl rfl (by decide) rfl
  refine ⟨?_, h.2.2⟩
  have := h.2.1
  revert this
  decide

/-! ## C3: token rotation is not persisted unless a delivery commits -/

/-- C3: the claim that a rotated access token is persisted to the Account row
in every outcome of the daily-summary run fails on the code.  The only
`session.commit()` in `_send_user_daily_summary` sits inside the
successful-delivery branch, so (a) with a rotation and an empty merged item
set the run returns before committing, and (b) with a rotation and a
`Forbidden` delivery the exception path skips the commit — in both concrete
runs below the rotation is applied to the in-memory row but the committed
(persisted) Account row still carries the old token after the session
closes. -/
theorem daily_token_rotation_lost_without_delivery :
    ((sendDailySummaries
        ⟨fun _ => .ok ([], some "fernet:new", some 99), fun _ => .ok [],
         fun _ => .delivered⟩
        "2026-10-12"
        ⟨⟨["u1"], [⟨1, "u1", "a@x", "fernet:rt", some "fernet:old", some 0⟩], [], []⟩,
         ⟨["u1"], [⟨1, "u1", "a@x", "fernet:rt", some "fernet:old", some 0⟩], [], []⟩⟩).1.mem.googleAccounts
      = [⟨1, "u1", "a@x", "fernet:rt", some "fernet:new", some 99⟩])
    ∧ ((sendDailySummaries
        ⟨fun _ => .ok ([], some "fernet:new", some 99), fun _ => .ok [],
         fun _ => .delivered⟩
        "2026-10-12"
        ⟨⟨["u1"], [⟨1, "u1", "a@x", "fernet:rt", some "fernet:old", some 0⟩], [], []⟩,
         ⟨["u1"], [⟨1, "u1", "a@x", "fernet:rt", some "fernet:old", some 0⟩], [], []⟩⟩).1.disk.googleAccounts
      = [⟨1, "u1", "a@x", "fernet:rt", some "fernet:old", some 0⟩])
    ∧ ((sendDailySummaries
        ⟨fun _ => .ok ([⟨some "e1", "Mtg", some "2026-10-12T10:00:00", none, none, none⟩],
            some "fernet:new", some 99),
         fun _ => .ok [], fun _ => .forbidden⟩
        "2026-10-12"
        ⟨⟨["u1"], [⟨1, "u1", "a@x", "fernet:rt", some "fernet:old", some 0⟩], [], []⟩,
         ⟨["u1"], [⟨1, "u1", "a@x", "fernet:rt", some "fernet:old", some 0⟩], [], []⟩⟩).1.mem.googleAccounts
      = [⟨1, "u1", "a@x", "fernet:rt", some "fernet:new", some 99⟩])
    ∧ ((sendDailySummaries
        ⟨fun _ => .ok ([⟨some "e1", "Mtg", some "2026-10-12T10:00:00", none, none, none⟩],
            some "fernet:new", some 99),
         fun _ => .ok [], fun _ => .forbidden⟩
        "2026-10-12"
        ⟨⟨["u1"], [⟨1, "u1", "a@x", "fernet:rt", some "fernet:old", some 0⟩], [], []⟩,
         ⟨["u1"], [⟨1, "u1", "a@x", "fernet:rt", some "fernet:old", some 0⟩], [], []⟩⟩).1.disk.googleAccounts
      = [⟨1, "u1", "a@x", "fernet:rt", some "fernet:old", some 0⟩]) := by
  refine ⟨?_, ?_, ?_, ?_⟩ <;> decide

/-! ## C6: token refresh and fetch failure behaviour -/

/-- C6 counterexample: the claim that the fetch fails when the token is
expired and no refresh token exists fails on the code.  With an expiry in the
past (0, at `now = 100`), no refresh token, and the provider answering 401,
`_get_valid_token` silently falls through to the stale decrypted token and
`get_events` returns a successful empty result instead of failing. -/
theorem get_events_no_refresh_token_succeeds_empty :
    getValidToken "fernet:at" none (some 0) 100 none = .ok ("at", none, none)
    ∧ get_events "fernet:at" none (some 0) 100 none [⟨401, [], none⟩]
      = .ok ([], none, none) :=
  ⟨rfl, rfl⟩

/-- C6 (amended): `_get_valid_token` attempts a refresh exactly when a stored
expiry exists and lies at or below `now + 5` minutes AND a truthy refresh
token is stored; the fetch fails exactly when that attempted refresh call
itself fails; a rotated (encrypted) token is returned exactly when the
attempted refresh succeeds; and with no stored refresh token the fetch never
fails — it proceeds with the stale stored token (a non-200 provider response
then yields a successful, possibly empty, result as the counterexample
shows). -/
theorem token_refresh_characterization (access : String) (refresh : Option String)
    (expiresAt : Option Int) (now : Int) (refreshCall : Option (String × Int))
    (pages : List Page) :
    (getValidToken access refresh expiresAt now refreshCall = .error ()
      ↔ (∃ x, expiresAt = some x ∧ x - 5 ≤ now)
          ∧ pyTruthyStr refresh = true ∧ refreshCall = none)
    ∧ ((∃ t enc xp, getValidToken access refresh expiresAt now refreshCall
          = .ok (t, some enc, xp))
      ↔ (∃ x, expiresAt = some x ∧ x - 5 ≤ now)
          ∧ pyTruthyStr refresh = true ∧ (∃ p, refreshCall = some p))
    ∧ (pyTruthyStr refresh = false →
        ∀ er, get_events access refresh expiresAt now refreshCall pages ≠ .error er)
    ∧ (∀ er, get_events access refresh expiresAt now refreshCall pages = .error er
        ↔ getValidToken access refresh expiresAt now refreshCall = .error er) := by
  have hchar : ∀ er, get_events access refresh expiresAt now refreshCall pages = .error er
      ↔ getValidToken access refresh expiresAt now refreshCall = .error er := by
    intro er
    unfold get_events
    cases hv : getValidToken access refresh expiresAt now refreshCall with
    | error e => cases e; simp
    | ok res => obtain ⟨t, enc, xp⟩ := res; simp
  refine ⟨?_, ?_, ?_, hchar⟩
  · unfold getValidToken
    cases expiresAt with
    | none => simp
    | some x =>
      by_cases hx : x - 5 ≤ now
      · cases htr : pyTruthyStr refresh with
        | false =>
          simp [hx, htr]
        | true =>
          cases refreshCall with
          | none =>
            simp [hx, htr]
            omega
          | some p => simp [hx, htr]
      · simp [hx]
        intro h
        omega
  · unfold getValidToken
    cases expiresAt with
    | none => simp
    | some x =>
      by_cases hx : x - 5 ≤ now
      · cases htr : pyTruthyStr refresh with
        | false =>
          simp [hx, htr]
        | true =>
          cases refreshCall with
          | none => simp [hx, htr]
          | some p =>
            simp [hx, htr]
            omega
      · simp [hx]
        intro h
        omega
  · intro htr er hcontra
    have hverr := (hchar er).mp hcontra
    have hne : getValidToken access refresh expiresAt now refreshCall ≠ .error er := by
      unfold getValidToken
      cases expiresAt with
      | none => simp
      | some x =>
        by_cases hx : x - 5 ≤ now
        · simp [hx, htr]
        · simp [hx]
    exact hne hverr

/-- C6 witness: with a truthy refresh token, an expiry within the 5-minute
margin and a failing refresh call, the fetch itself fails; with a succeeding
refresh call it returns the rotated encrypted token. -/
theorem token_refresh_characterization_witness :
    getValidToken "fernet:at" (some "fernet:rt") (some 10) 8 none = .error ()
    ∧ (∃ t enc xp, getValidToken "fernet:at" (some "fernet:rt") (some 10) 8
        (some ("newTok", 99)) = .ok (t, some enc, xp))
    ∧ get_events "fernet:at" none (some 10) 8 none [⟨200, [], none⟩]
        ≠ .error () := by
  have h1 := (token_refresh_characterization "fernet:at" (some "fernet:rt")
    (some 10) 8 none []).1
  have h2 := (token_refresh_characterization "fernet:at" (some "fernet:rt")
    (some 10) 8 (some ("newTok", 99)) []).2.1
  have h3 := (token_refresh_characterization "fernet:at" none (some 10) 8 none
    [⟨200, [], none⟩]).2.2.1
  refine ⟨?_, ?_, ?_⟩
  · exact h1.mpr ⟨⟨10, rfl, by norm_num⟩, by decide, rfl⟩
  · exact h2.mpr ⟨⟨10, rfl, by norm_num⟩, by decide, ⟨("newTok", 99), rfl⟩⟩
  · exact h3 (by decide) ()

/-! ## C9: the announcement dedup key namespace -/

/-- Modelled from the spec: the shape of `date.today().isoformat()` — the
daily-summary dedup key space — which is always `YYYY-MM-DD`: ten characters,
digits everywhere except hyphens at positions 4 and 7. -/
def isoDateString (s : String) : Bool :=
  (s.data.length == 10) && (s.data.take 4).all Char.isDigit
    && ((s.data.drop 4).take 1 == ['-'])
    && ((s.data.drop 5).take 2).all Char.isDigit
    && ((s.data.drop 7).take 1 == ['-'])
    && ((s.data.drop 8).take 2).all Char.isDigit

/-- An ISO date string starts with a digit. -/
theorem isoDateString_head (d : String) (h : isoDateString d = true) :
    ∃ c l, d.data = c :: l ∧ c.isDigit = true := by
  unfold isoDateString at h
  simp only [Bool.and_eq_true] at h
  obtain ⟨⟨⟨⟨⟨h1, h2⟩, _⟩, _⟩, _⟩, _⟩ := h
  cases hd : d.data with
  | nil => rw [hd] at h1; simp at h1
  | cons c l =>
    rw [hd] at h2
    rw [List.take_succ_cons, List.all_cons, Bool.and_eq_true] at h2
    exact ⟨c, l, rfl, h2.1⟩

/-- The announcement dedup key always starts with the character `c` of its
`canvas_ann_` prefix. -/
theorem annKey_data (a : Announcement) :
    ∃ l, (annKey a).data = 'c' :: l := by
  unfold annKey
  rw [String.data_append]
  exact ⟨"anvas_ann_".data ++ (pyStrOptNat a.id).data, rfl⟩

/-- No announcement dedup key is an ISO calendar-date string. -/
theorem annKey_ne_isoDate (a : Announcement) (d : String)
    (hd : isoDateString d = true) : annKey a ≠ d := by
  intro he
  obtain ⟨l, hl⟩ := annKey_data a
  obtain ⟨c, t, hdt, hdig⟩ := isoDateString_head d hd
  rw [he, hdt] at hl
  have hc : c = 'c' := by
    have := List.head_eq_of_cons_eq hl.symm
    exact this.symm
  rw [hc] at hdig
  exact absurd hdig (by decide)

/-- C9: every announcement notification is deduplicated under the namespaced
key `"canvas_ann_" ++ <provider item id>`; that key never equals a
daily-summary key (an ISO calendar date); a ledger row carrying the
announcement reminder kind never satisfies the dedup predicate of the
daily-summary or hour-before jobs (the `kind` column disambiguates, so
announcement entries cannot collide with the other kinds' key spaces); and
the announcement job obeys the same check/deliver/write contract: skip when
the ledger has the triple, append the row exactly on a successful delivery,
and leave the ledger unchanged on a failed one. -/
theorem announcement_namespaced_dedup_contract (env : AnnEnv) (u : String)
    (ann : Announcement) (led : List SentReminderRow) (d : String)
    (r : SentReminderRow) (u2 k : String) :
    annKey ann = "canvas_ann_" ++ pyStrOptNat ann.id
    ∧ (isoDateString d = true → annKey ann ≠ d)
    ∧ (r.reminder_type = "announcement" →
        rowMatches r u2 "daily_summary" k = false
        ∧ rowMatches r u2 "hour_before" k = false)
    ∧ (ledgerHasL led u "announcement" (annKey ann) = true →
        sendAnnouncementNotification env u ann led = (led, false))
    ∧ (ledgerHasL led u "announcement" (annKey ann) = false →
        env.deliver u ann = .delivered →
        sendAnnouncementNotification env u ann led
          = (led ++ [⟨u, "announcement", annKey ann⟩], true))
    ∧ (env.deliver u ann ≠ .delivered →
        (sendAnnouncementNotification env u ann led).1 = led) := by
  refine ⟨rfl, annKey_ne_isoDate ann d, ?_, ?_, ?_, ?_⟩
  · intro hty
    unfold rowMatches
    rw [hty]
    constructor
    · simp
    · simp
  · intro hl
    simp [sendAnnouncementNotification, hl]
  · intro hl hdel
    simp [sendAnnouncementNotification, hl, hdel]
  · intro hne
    by_cases hl : ledgerHasL led u "announcement" (annKey ann) = true
    · simp [sendAnnouncementNotification, hl]
    · simp only [Bool.not_eq_true] at hl
      cases hdel : env.deliver u ann with
      | delivered => exact absurd hdel hne
      | userFalsy => simp [sendAnnouncementNotification, hl, hdel]
      | forbidden => simp [sendAnnouncementNotification, hl, hdel]
      | failed => simp [sendAnnouncementNotification, hl, hdel]

/-- C9 witness: a concrete announcement with id 42, the concrete daily key of
2026-10-12, a concrete announcement ledger row, and a deliverable run. -/
theorem announcement_namespaced_dedup_contract_witness :
    annKey ⟨some 42, "Title", "Msg", "Course"⟩ = "canvas_ann_42"
    ∧ annKey ⟨some 42, "Title", "Msg", "Course"⟩ ≠ "2026-10-12"
    ∧ rowMatches ⟨"u1", "announcement", "canvas_ann_42"⟩ "u1" "daily_summary"
        "canvas_ann_42" = false
    ∧ sendAnnouncementNotification ⟨fun _ => .ok [], fun _ _ => .delivered⟩
        "u1" ⟨some 42, "Title", "Msg", "Course"⟩ []
      = ([⟨"u1", "announcement", "canvas_ann_42"⟩], true) := by
  have h := announcement_namespaced_dedup_contract
    ⟨fun _ => .ok [], fun _ _ => .delivered⟩ "u1"
    ⟨some 42, "Title", "Msg", "Course"⟩ [] "2026-10-12"
    ⟨"u1", "announcement", "canvas_ann_42"⟩ "u1" "canvas_ann_42"
  refine ⟨by decide, h.2.1 (by decide), (h.2.2.1 rfl).1, ?_⟩
  have h5 := h.2.2.2.2.1 (by decide) rfl
  simpa using h5

end DiscordReminder
